import Mathlib

/-!
Shallow embedding of the schema-migration manager (package `migration`).

The Go code manages a persisted table `schema_migrations` with rows
`(namespace, version, dirty, applied_at)`, reads migration scripts from
`<migrationsDir>/<namespace>/<version>_<description>.{up,down}.sql`, and
applies or rolls back versions one transaction at a time.

Modelling choices:
* the version store is a list of `Rec`; `setVersion` is the SQL upsert and
  `deleteVersion` the SQL delete of the source;
* the user schema affected by migration scripts is an abstract type `S`;
  executing a script is an oracle `exec : String → S → Option S` (`none`
  models a SQL execution error); a transaction holds the tentative schema,
  which becomes visible only on a successful commit;
* each collaborator call that can fail in Go (table creation, the version
  query, the upsert/delete writes, begin/commit, directory and file reads,
  the status namespace query) has a success flag in `Env`, so error
  propagation can be stated and refuted;
* `applied_at` is modelled by a logical clock ticking at every upsert;
* the transaction log `txlog` records every Begin/Commit/Rollback invocation,
  mirroring the `defer { if err != nil { tx.Rollback() } }` pattern of the
  source (the deferred rollback fires exactly when the local `err` is
  non-nil at return).
-/

namespace Migration

/-- One persisted row of the `schema_migrations` table. -/
structure Rec where
  ns : String
  version : Int
  dirty : Bool
  appliedAt : Nat
deriving Repr, DecidableEq

/-- A directory entry as returned by `os.ReadDir`: a plain file with its
content, or a subdirectory (skipped by the loader). -/
inductive Entry where
  | file (name : String) (content : String)
  | dir (name : String)
deriving Repr, DecidableEq

/-- The migrations directory: each pair is a namespace subdirectory with its
entries. A namespace absent from the list has no directory (`os.Stat`
reports not-exist). -/
structure FS where
  namespaces : List (String × List Entry)
deriving Repr, DecidableEq

/-- Mirrors the Go struct `MigrationFile`. -/
structure MigrationFile where
  Version : Int
  Description : String
  Namespace : String
  UpSQL : String
  DownSQL : String
deriving Repr, DecidableEq

/-- Transaction lifecycle events: one entry per invocation of
`BeginTxx`, `tx.Commit`, `tx.Rollback` on the shared handle. -/
inductive TxEvent where
  | txBegin
  | txCommit
  | txRollback
deriving Repr, DecidableEq

/-- The world state threaded through the manager: the persisted
`schema_migrations` rows, the abstract user schema, the clock supplying
`applied_at` values, and the transaction event log. -/
structure DB (S : Type) where
  store : List Rec
  schema : S
  clock : Nat
  txlog : List TxEvent

/-- Collaborator oracle: script semantics plus one success flag per
fallible call the Go code makes against the database or the filesystem. -/
structure Env (S : Type) where
  exec : String → S → Option S
  ensureOk : Bool
  queryVersionOk : String → Bool
  setVersionOk : String → Int → Bool → Bool
  deleteVersionOk : String → Int → Bool
  beginOk : Bool
  commitOk : Bool
  readDirOk : String → Bool
  readFileOk : String → String → Bool
  rootReadDirOk : Bool
  statusQueryOk : Bool

/-- Errors of the failed collaborator calls inside a single-version apply or
rollback unit. -/
inductive UnitErr where
  | beginFailed
  | markDirtyFailed
  | scriptExecFailed
  | markCleanFailed
  | commitFailed
  | missingDown (version : Int)
  | downScriptFailed
  | deleteVersionFailed
deriving Repr, DecidableEq

/-- Loader errors: `os.ReadDir` on the namespace directory, or `os.ReadFile`
on one migration file. -/
inductive LoadErr where
  | readDirFailed
  | readFileFailed (name : String)
deriving Repr, DecidableEq

/-- Errors returned by the public operations, with the wrapping structure of
the source's `fmt.Errorf("...: %w", err)` chains. -/
inductive MigErr where
  | schemaInit
  | getVersionFailed
  | dirtyState (ns : String) (version : Int)
  | loadFailed (e : LoadErr)
  | applyFailed (version : Int) (e : UnitErr)
  | rollbackStepFailed (version : Int) (e : UnitErr)
  | coreFailed (e : MigErr)
  | moduleFailed (ns : String) (e : MigErr)
  | statusQueryFailed
deriving Repr, DecidableEq

/-- Mirrors the Go struct `MigrationStatus`. -/
structure MigrationStatus where
  Namespace : String
  CurrentVersion : Int
  PendingCount : Nat
  Dirty : Bool
deriving Repr, DecidableEq

/-- Splitting a character list at every occurrence of `sep`; empty pieces are
kept, and the empty input yields one empty piece, as in Go. -/
def splitChar (sep : Char) : List Char → List (List Char)
  | [] => [[]]
  | c :: cs =>
    if c = sep then [] :: splitChar sep cs
    else
      match splitChar sep cs with
      | [] => [[c]]
      | p :: ps => (c :: p) :: ps

/-- Go `strings.Split(s, "_")`. -/
def splitU (s : String) : List String :=
  (splitChar '_' s.toList).map (fun l => String.mk l)

/-- Go `strings.HasSuffix`. -/
def hasSuffix (s suf : String) : Bool :=
  suf.toList.isSuffixOf s.toList

/-- Underscore-joining of character-list pieces (Go `strings.Join(parts, "_")`). -/
def joinUnderscore : List (List Char) → List Char
  | [] => []
  | [p] => p
  | p :: q :: ps => p ++ '_' :: joinUnderscore (q :: ps)

/-- Decimal digit test on a character. -/
def isDigitChar (c : Char) : Bool :=
  48 ≤ c.toNat && c.toNat ≤ 57

/-- Value of a non-empty all-digit character list, `none` otherwise. -/
def parseDigits (cs : List Char) : Option Nat :=
  if cs.isEmpty then none
  else if cs.all isDigitChar then
    some (cs.foldl (fun acc c => acc * 10 + (c.toNat - 48)) 0)
  else none

/-- Largest value of Go's 64-bit `int`. -/
def intMax : Int := 9223372036854775807

/-- Smallest value of Go's 64-bit `int`. -/
def intMin : Int := -9223372036854775808

/-- Go `strconv.Atoi`: optional sign, decimal digits, 64-bit range check.
Note it accepts a leading `-`, so negative version prefixes parse. -/
def atoi (s : String) : Option Int :=
  match s.toList with
  | [] => none
  | '+' :: rest =>
    (parseDigits rest).bind (fun n => if (n : Int) ≤ intMax then some (n : Int) else none)
  | '-' :: rest =>
    (parseDigits rest).bind (fun n => if intMin ≤ -(n : Int) then some (-(n : Int)) else none)
  | cs =>
    (parseDigits cs).bind (fun n => if (n : Int) ≤ intMax then some (n : Int) else none)

/-- Go `strings.TrimSuffix`. -/
def trimSuffix (s suf : String) : String :=
  if hasSuffix s suf then String.mk (s.toList.take (s.toList.length - suf.toList.length))
  else s

/-- Description extracted from an up-filename: everything after the first
underscore joined back with underscores, with `.up.sql` stripped. -/
def descOf (name : String) : String :=
  match splitChar '_' name.toList with
  | _ :: rest =>
    if rest.length > 0 then trimSuffix (String.mk (joinUnderscore rest)) ".up.sql" else ""
  | [] => ""

/-- Record an up-script under its version in the accumulated migration set
(the Go `migrations[version]` map): update the existing record's `UpSQL` and
`Description`, or create a fresh record. -/
def mergeUp (acc : List MigrationFile) (ns : String) (v : Int) (content desc : String) :
    List MigrationFile :=
  if acc.any (fun m => m.Version == v) then
    acc.map (fun m => if m.Version == v then { m with UpSQL := content, Description := desc } else m)
  else
    acc ++ [{ Version := v, Description := desc, Namespace := ns, UpSQL := content, DownSQL := "" }]

/-- Record a down-script under its version: update the existing record's
`DownSQL`, or create a fresh record with empty description and up-script. -/
def mergeDown (acc : List MigrationFile) (ns : String) (v : Int) (content : String) :
    List MigrationFile :=
  if acc.any (fun m => m.Version == v) then
    acc.map (fun m => if m.Version == v then { m with DownSQL := content } else m)
  else
    acc ++ [{ Version := v, Description := "", Namespace := ns, UpSQL := "", DownSQL := content }]

/-- The per-entry loop body of `loadMigrationFiles`: skip directories, skip
names without an underscore, skip version prefixes `strconv.Atoi` rejects,
fail on an unreadable file, then merge by direction suffix (a file with a
valid prefix but neither suffix is read and then ignored). -/
def loadEntries (env : Env S) (ns : String) :
    List Entry → List MigrationFile → Except LoadErr (List MigrationFile)
  | [], acc => .ok acc
  | .dir _ :: rest, acc => loadEntries env ns rest acc
  | .file name content :: rest, acc =>
    match splitU name with
    | p0 :: _ :: _ =>
      match atoi p0 with
      | none => loadEntries env ns rest acc
      | some v =>
        if env.readFileOk ns name then
          if hasSuffix name ".up.sql" then
            loadEntries env ns rest (mergeUp acc ns v content (descOf name))
          else if hasSuffix name ".down.sql" then
            loadEntries env ns rest (mergeDown acc ns v content)
          else
            loadEntries env ns rest acc
        else .error (.readFileFailed name)
    | _ => loadEntries env ns rest acc

/-- Insertion into a version-sorted list, mirroring the final
`sort.Slice(... Version < Version)`. -/
def insertByVersion (m : MigrationFile) : List MigrationFile → List MigrationFile
  | [] => [m]
  | x :: xs => if m.Version < x.Version then m :: x :: xs else x :: insertByVersion m xs

/-- Sort by ascending version (versions are unique, so the order is the one
`sort.Slice` produces). -/
def sortByVersion : List MigrationFile → List MigrationFile
  | [] => []
  | x :: xs => insertByVersion x (sortByVersion xs)

/-- Go `loadMigrationFiles`: a missing namespace directory yields an empty
list with a warning; otherwise read the directory, assemble the per-version
records and sort them by version. -/
def loadMigrationFiles (env : Env S) (fs : FS) (ns : String) :
    Except LoadErr (List MigrationFile) :=
  match fs.namespaces.lookup ns with
  | none => .ok []
  | some entries =>
    if env.readDirOk ns then
      (loadEntries env ns entries []).map sortByVersion
    else .error .readDirFailed

/-- The row with the greatest version among `r :: rs`. -/
def maxRow (r : Rec) : List Rec → Rec
  | [] => r
  | x :: xs => maxRow (if r.version < x.version then x else r) xs

/-- Go `getCurrentVersion`: the `ORDER BY version DESC LIMIT 1` row of the
namespace, or `(0, false)` when the namespace has no rows. -/
def getCurrentVersion (store : List Rec) (ns : String) : Int × Bool :=
  match store.filter (fun r => r.ns == ns) with
  | [] => (0, false)
  | r :: rs => ((maxRow r rs).version, (maxRow r rs).dirty)

/-- The SQL upsert of `setVersion`: on `(namespace, version)` conflict
overwrite `dirty` and `applied_at`, otherwise insert a new row. -/
def storeUpsert (store : List Rec) (ns : String) (v : Int) (d : Bool) (t : Nat) : List Rec :=
  if store.any (fun r => r.ns == ns && r.version == v) then
    store.map (fun r =>
      if r.ns == ns && r.version == v then { r with dirty := d, appliedAt := t } else r)
  else store ++ [⟨ns, v, d, t⟩]

/-- The SQL delete of `deleteVersion`. -/
def storeDelete (store : List Rec) (ns : String) (v : Int) : List Rec :=
  store.filter (fun r => !(r.ns == ns && r.version == v))

/-- Go `setVersion` applied to the world: upsert at the current clock, tick
the clock. -/
def setVersion (db : DB S) (ns : String) (v : Int) (d : Bool) : DB S :=
  { db with store := storeUpsert db.store ns v d db.clock, clock := db.clock + 1 }

/-- Go `applyMigration`: begin a transaction, mark dirty (a store write
outside the transaction), run the up-script inside the transaction, mark
clean (again outside the transaction), then commit. The deferred
`tx.Rollback()` fires on every path that returns with the local `err` set;
the commit's own failure leaves `err` nil, so no rollback follows it. -/
def applyMigration (env : Env S) (db : DB S) (mig : MigrationFile) :
    Except UnitErr Unit × DB S :=
  if env.beginOk then
    let db0 := { db with txlog := db.txlog ++ [.txBegin] }
    if env.setVersionOk mig.Namespace mig.Version true then
      let db1 := setVersion db0 mig.Namespace mig.Version true
      match env.exec mig.UpSQL db1.schema with
      | none => (.error .scriptExecFailed, { db1 with txlog := db1.txlog ++ [.txRollback] })
      | some s2 =>
        if env.setVersionOk mig.Namespace mig.Version false then
          let db2 := setVersion db1 mig.Namespace mig.Version false
          if env.commitOk then
            (.ok (), { db2 with schema := s2, txlog := db2.txlog ++ [.txCommit] })
          else
            (.error .commitFailed, { db2 with txlog := db2.txlog ++ [.txCommit] })
        else
          (.error .markCleanFailed, { db1 with txlog := db1.txlog ++ [.txRollback] })
    else
      (.error .markDirtyFailed, { db0 with txlog := db0.txlog ++ [.txRollback] })
  else (.error .beginFailed, db)

/-- Go `rollbackMigration`: begin a transaction, require a down-script, run
it inside the transaction, delete the version row (a store write outside the
transaction), then commit. The missing-down return does not assign the local
`err`, so the deferred rollback is skipped and the transaction stays open. -/
def rollbackMigration (env : Env S) (db : DB S) (mig : MigrationFile) :
    Except UnitErr Unit × DB S :=
  if env.beginOk then
    let db0 := { db with txlog := db.txlog ++ [.txBegin] }
    if mig.DownSQL = "" then
      (.error (.missingDown mig.Version), db0)
    else
      match env.exec mig.DownSQL db0.schema with
      | none => (.error .downScriptFailed, { db0 with txlog := db0.txlog ++ [.txRollback] })
      | some s2 =>
        if env.deleteVersionOk mig.Namespace mig.Version then
          let db1 := { db0 with store := storeDelete db0.store mig.Namespace mig.Version }
          if env.commitOk then
            (.ok (), { db1 with schema := s2, txlog := db1.txlog ++ [.txCommit] })
          else (.error .commitFailed, { db1 with txlog := db1.txlog ++ [.txCommit] })
        else (.error .deleteVersionFailed, { db0 with txlog := db0.txlog ++ [.txRollback] })
  else (.error .beginFailed, db)

/-- The pending loop of `MigrateNamespace`: apply in order, stop and wrap at
the first failure. -/
def applyList (env : Env S) : DB S → List MigrationFile → Except MigErr Unit × DB S
  | db, [] => (.ok (), db)
  | db, m :: rest =>
    match applyMigration env db m with
    | (.ok _, db2) => applyList env db2 rest
    | (.error e, db2) => (.error (.applyFailed m.Version e), db2)

/-- The rollback loop of `Rollback`: roll back in order, stop and wrap at
the first failure. -/
def rollbackList (env : Env S) : DB S → List MigrationFile → Except MigErr Unit × DB S
  | db, [] => (.ok (), db)
  | db, m :: rest =>
    match rollbackMigration env db m with
    | (.ok _, db2) => rollbackList env db2 rest
    | (.error e, db2) => (.error (.rollbackStepFailed m.Version e), db2)

/-- Go `MigrateNamespace`: ensure the table, read the current version, block
on dirty, load the files, filter the pending ones, apply them in order. -/
def MigrateNamespace (env : Env S) (fs : FS) (db : DB S) (ns : String) :
    Except MigErr Unit × DB S :=
  if env.ensureOk then
    if env.queryVersionOk ns then
      let cd := getCurrentVersion db.store ns
      if cd.2 then (.error (.dirtyState ns cd.1), db)
      else
        match loadMigrationFiles env fs ns with
        | .error e => (.error (.loadFailed e), db)
        | .ok migs =>
          if migs.isEmpty then (.ok (), db)
          else
            let pending := migs.filter (fun m => cd.1 < m.Version)
            if pending.isEmpty then (.ok (), db)
            else applyList env db pending
    else (.error .getVersionFailed, db)
  else (.error .schemaInit, db)

/-- The selection loop of `Rollback`: walk the sorted list from the highest
version down, collecting rows with `version ≤ current` until `steps` are
gathered. -/
def selectRollback (migs : List MigrationFile) (cur : Int) (steps : Int) :
    List MigrationFile :=
  migs.reverse.foldl
    (fun acc m =>
      if m.Version ≤ cur ∧ (acc.length : Int) < steps then acc ++ [m] else acc) []

/-- Go `Rollback`: read the current version, block on dirty, no-op at
version 0, load the files, select up to `steps` applied versions from the
top, roll them back in descending order. -/
def Rollback (env : Env S) (fs : FS) (db : DB S) (ns : String) (steps : Int) :
    Except MigErr Unit × DB S :=
  if env.queryVersionOk ns then
    let cd := getCurrentVersion db.store ns
    if cd.2 then (.error (.dirtyState ns cd.1), db)
    else if cd.1 = 0 then (.ok (), db)
    else
      match loadMigrationFiles env fs ns with
      | .error e => (.error (.loadFailed e), db)
      | .ok migs =>
        let toR := selectRollback migs cd.1 steps
        if toR.isEmpty then (.ok (), db)
        else rollbackList env db toR
  else (.error .getVersionFailed, db)

/-- The module loop of `MigrateAll`; the third component is the list of
namespaces attempted, in order. -/
def migrateModules (env : Env S) (fs : FS) :
    DB S → List String → Except MigErr Unit × DB S × List String
  | db, [] => (.ok (), db, [])
  | db, n :: rest =>
    match MigrateNamespace env fs db n with
    | (.ok _, db2) =>
      let r := migrateModules env fs db2 rest
      (r.1, r.2.1, n :: r.2.2)
    | (.error e, db2) => (.error (.moduleFailed n e), db2, [n])

/-- Go `MigrateAll`: migrate the hardcoded namespace `"core"` first, then
each enabled module in the given order, stopping at the first failure. The
third component records the namespaces attempted, in order. -/
def MigrateAll (env : Env S) (fs : FS) (db : DB S) (mods : List String) :
    Except MigErr Unit × DB S × List String :=
  match MigrateNamespace env fs db "core" with
  | (.ok _, db2) =>
    let r := migrateModules env fs db2 mods
    (r.1, r.2.1, "core" :: r.2.2)
  | (.error e, db2) => (.error (.coreFailed e), db2, ["core"])

/-- Go `Version`: the current version of the namespace, or the query error. -/
def Version (env : Env S) (db : DB S) (ns : String) : Except MigErr Int :=
  if env.queryVersionOk ns then .ok (getCurrentVersion db.store ns).1
  else .error .getVersionFailed

/-- The namespaces with at least one persisted row, in first-occurrence
order (`SELECT DISTINCT namespace`). -/
def distinctNamespaces (store : List Rec) : List String :=
  store.foldl (fun acc r => if r.ns ∈ acc then acc else acc ++ [r.ns]) []

/-- Union of the store-derived namespaces with the filesystem directories
(each root subdirectory not already present is appended). -/
def unionNamespaces (nss : List String) (fs : FS) : List String :=
  fs.namespaces.foldl (fun acc p => if p.1 ∈ acc then acc else acc ++ [p.1]) nss

/-- The namespace list `Status` iterates over: store-derived namespaces,
extended with the filesystem directories only when the root directory read
succeeds (its failure is silently ignored by the source). -/
def statusNamespaces (env : Env S) (fs : FS) (db : DB S) : List String :=
  let nss := distinctNamespaces db.store
  if env.rootReadDirOk then unionNamespaces nss fs else nss

/-- The per-namespace loop of `Status`. -/
def statusLoop (env : Env S) (fs : FS) (db : DB S) :
    List String → Except MigErr (List MigrationStatus)
  | [] => .ok []
  | n :: rest =>
    if env.queryVersionOk n then
      let cd := getCurrentVersion db.store n
      match loadMigrationFiles env fs n with
      | .error e => .error (.loadFailed e)
      | .ok migs =>
        let pc := (migs.filter (fun m => cd.1 < m.Version)).length
        (statusLoop env fs db rest).map (fun l => ⟨n, cd.1, pc, cd.2⟩ :: l)
    else .error .getVersionFailed

/-- Go `Status`: ensure the table, query the distinct namespaces, union with
the root directory listing (whose failure is ignored), then compute
`(currentVersion, pendingCount, dirty)` per namespace. -/
def Status (env : Env S) (fs : FS) (db : DB S) : Except MigErr (List MigrationStatus) :=
  if env.ensureOk then
    if env.statusQueryOk then
      statusLoop env fs db (statusNamespaces env fs db)
    else .error .statusQueryFailed
  else .error .schemaInit

/-- Tests whether an error is the dirty-state guard error (not merely wrapping
one). -/
def MigErr.isDirtyState : MigErr → Bool
  | .dirtyState _ _ => true
  | _ => false

/-- The dirty flag of the persisted row for `(ns, v)`, if such a row exists. -/
def rowDirty (store : List Rec) (ns : String) (v : Int) : Option Bool :=
  (store.find? (fun r => r.ns == ns && r.version == v)).map (fun r => r.dirty)

/-- Environment in which every collaborator call succeeds and every script
leaves the (trivial) schema unchanged. -/
def allOkEnv : Env Unit :=
  ⟨fun _ _ => some (), true, fun _ => true, fun _ _ _ => true, fun _ _ => true,
   true, true, fun _ => true, fun _ _ => true, true, true⟩

/-- Environment in which everything succeeds except `tx.Commit`. -/
def failCommitEnv : Env Unit :=
  ⟨fun _ _ => some (), true, fun _ => true, fun _ _ _ => true, fun _ _ => true,
   true, false, fun _ => true, fun _ _ => true, true, true⟩

/-- Environment in which everything succeeds except `os.ReadDir` on the root
migrations directory. -/
def noRootDirEnv : Env Unit :=
  ⟨fun _ _ => some (), true, fun _ => true, fun _ _ _ => true, fun _ _ => true,
   true, true, fun _ => true, fun _ _ => true, false, true⟩

/-- Environment in which every collaborator call succeeds but executing the
script `"U2"` fails. -/
def failU2Env : Env Unit :=
  ⟨fun q _ => if q = "U2" then none else some (), true, fun _ => true,
   fun _ _ _ => true, fun _ _ => true, true, true, fun _ => true,
   fun _ _ => true, true, true⟩

/-- A namespace directory holding versions 1, 2, 3, each with an up- and a
down-script. -/
def fs3 (ns u1 d1 u2 d2 u3 d3 : String) : FS :=
  ⟨[(ns,
    [.file "1_a.up.sql" u1, .file "1_a.down.sql" d1,
     .file "2_b.up.sql" u2, .file "2_b.down.sql" d2,
     .file "3_c.up.sql" u3, .file "3_c.down.sql" d3])]⟩

/-- C1: when the maximum-version row of a namespace is dirty, both
`MigrateNamespace` and `Rollback` return the `DirtyState` error and leave the
whole world (version store, schema, transaction log) unchanged — uniformly in
the filesystem and the script semantics, so no migration script is loaded or
executed. -/
theorem c1_dirty_blocks (S : Type) (env : Env S) (fs : FS) (db : DB S)
    (ns : String) (steps : Int)
    (he : env.ensureOk = true) (hq : env.queryVersionOk ns = true)
    (hd : (getCurrentVersion db.store ns).2 = true) :
    MigrateNamespace env fs db ns =
      (.error (.dirtyState ns (getCurrentVersion db.store ns).1), db) ∧
    Rollback env fs db ns steps =
      (.error (.dirtyState ns (getCurrentVersion db.store ns).1), db) := by
  constructor
  · simp [MigrateNamespace, he, hq, hd]
  · simp [Rollback, hq, hd]

/-- C1 witness: a concrete dirty namespace is blocked by both operations. -/
theorem c1_witness :
    MigrateNamespace allOkEnv ⟨[]⟩ ⟨[⟨"core", 1, true, 0⟩], (), 0, []⟩ "core" =
      (.error (.dirtyState "core" 1), ⟨[⟨"core", 1, true, 0⟩], (), 0, []⟩) ∧
    Rollback allOkEnv ⟨[]⟩ ⟨[⟨"core", 1, true, 0⟩], (), 0, []⟩ "core" 1 =
      (.error (.dirtyState "core" 1), ⟨[⟨"core", 1, true, 0⟩], (), 0, []⟩) := by
  have h := c1_dirty_blocks Unit allOkEnv ⟨[]⟩ ⟨[⟨"core", 1, true, 0⟩], (), 0, []⟩
    "core" 1 (by decide) (by decide) (by decide)
  simpa [getCurrentVersion, maxRow] using h

/-- C9: on a migration whose down-script is empty, `rollbackMigration` opens
a transaction, returns the missing-down-script error without invoking either
`Commit` or `Rollback` on it (the transaction log gains exactly the `Begin`
event), and leaves the version store and schema unchanged. -/
theorem c9_missing_down_leak (S : Type) (env : Env S) (db : DB S)
    (mig : MigrationFile)
    (hb : env.beginOk = true) (hd : mig.DownSQL = "") :
    rollbackMigration env db mig =
      (.error (.missingDown mig.Version),
       { db with txlog := db.txlog ++ [.txBegin] }) := by
  simp [rollbackMigration, hb, hd]

/-- C9 witness: a concrete down-less migration leaks its transaction. -/
theorem c9_witness :
    rollbackMigration allOkEnv ⟨[⟨"m", 2, false, 0⟩], (), 5, []⟩
      ⟨2, "x", "m", "U", ""⟩ =
      (.error (.missingDown 2), ⟨[⟨"m", 2, false, 0⟩], (), 5, [.txBegin]⟩) := by
  have h := c9_missing_down_leak Unit allOkEnv ⟨[⟨"m", 2, false, 0⟩], (), 5, []⟩
    ⟨2, "x", "m", "U", ""⟩ (by decide) (by decide)
  simpa using h

lemma applyList_nil (S : Type) (env : Env S) (db : DB S) :
    applyList env db [] = (.ok (), db) := rfl

lemma applyList_cons (S : Type) (env : Env S) (db : DB S) (m : MigrationFile)
    (rest : List MigrationFile) :
    applyList env db (m :: rest) =
      match applyMigration env db m with
      | (.ok _, db2) => applyList env db2 rest
      | (.error e, db2) => (.error (.applyFailed m.Version e), db2) := rfl

lemma rollbackList_nil (S : Type) (env : Env S) (db : DB S) :
    rollbackList env db [] = (.ok (), db) := rfl

lemma rollbackList_cons (S : Type) (env : Env S) (db : DB S) (m : MigrationFile)
    (rest : List MigrationFile) :
    rollbackList env db (m :: rest) =
      match rollbackMigration env db m with
      | (.ok _, db2) => rollbackList env db2 rest
      | (.error e, db2) => (.error (.rollbackStepFailed m.Version e), db2) := rfl

lemma rowDirty_map_upd (ns : String) (v : Int) (d : Bool) (t : Nat) :
    ∀ st : List Rec, st.any (fun r => r.ns == ns && r.version == v) = true →
      rowDirty (st.map (fun r =>
        if r.ns == ns && r.version == v then { r with dirty := d, appliedAt := t } else r))
        ns v = some d := by
  intro st
  induction st with
  | nil => simp
  | cons r rs ih =>
    intro h
    by_cases hp : (r.ns == ns && r.version == v) = true
    · have hp2 : (({ r with dirty := d, appliedAt := t } : Rec).ns == ns &&
          ({ r with dirty := d, appliedAt := t } : Rec).version == v) = true := hp
      simp only [List.map_cons, if_pos hp]
      simp [rowDirty, List.find?_cons, hp2]
    · have h2 : rs.any (fun r => r.ns == ns && r.version == v) = true := by
        simp only [List.any_cons] at h
        simpa [hp] using h
      simp only [List.map_cons, if_neg hp]
      simpa [rowDirty, List.find?_cons, hp] using ih h2

lemma rowDirty_upsert (st : List Rec) (ns : String) (v : Int) (d : Bool) (t : Nat) :
    rowDirty (storeUpsert st ns v d t) ns v = some d := by
  by_cases h : st.any (fun r => r.ns == ns && r.version == v) = true
  · rw [storeUpsert, if_pos h]
    exact rowDirty_map_upd ns v d t st h
  · rw [storeUpsert, if_neg h]
    have hnone : List.find? (fun r => r.ns == ns && r.version == v) st = none := by
      rw [List.find?_eq_none]
      intro x hx hpx
      exact h (List.any_eq_true.mpr ⟨x, hx, hpx⟩)
    simp [rowDirty, List.find?_append, hnone, List.find?_cons]

/-- C3 counterexample: the claim says the mark-clean write is issued only
after the transaction has committed, so a unit failing at the commit would
leave `dirty = true`. In the code the mark-clean write precedes `tx.Commit`:
with a failing commit the unit fails, yet the persisted row for
`("core", 1)` already has `dirty = false`. -/
theorem c3_counterexample :
    applyMigration failCommitEnv ⟨[], (), 0, []⟩ ⟨1, "init", "core", "U", ""⟩ =
      (.error .commitFailed, ⟨[⟨"core", 1, false, 1⟩], (), 2, [.txBegin, .txCommit]⟩) := by
  rfl

/-- C3 amended: the mark-clean write is a separate store write issued after
the up-script executes but before the commit. A unit failing at the script
execution or at the mark-clean write itself leaves the row at `dirty = true`;
a unit failing at the commit leaves it at `dirty = false`. -/
theorem c3_markclean_before_commit (S : Type) (env : Env S) (db : DB S)
    (mig : MigrationFile) :
    ((applyMigration env db mig).1 = .error .scriptExecFailed →
      rowDirty (applyMigration env db mig).2.store mig.Namespace mig.Version = some true) ∧
    ((applyMigration env db mig).1 = .error .markCleanFailed →
      rowDirty (applyMigration env db mig).2.store mig.Namespace mig.Version = some true) ∧
    ((applyMigration env db mig).1 = .error .commitFailed →
      rowDirty (applyMigration env db mig).2.store mig.Namespace mig.Version = some false) := by
  cases hb : env.beginOk
  case false => simp [applyMigration, hb]
  case true =>
    cases hs1 : env.setVersionOk mig.Namespace mig.Version true
    case false => simp [applyMigration, hb, hs1]
    case true =>
      cases hex : env.exec mig.UpSQL db.schema
      case none => simp [applyMigration, setVersion, hb, hs1, hex, rowDirty_upsert]
      case some s2 =>
        cases hs2 : env.setVersionOk mig.Namespace mig.Version false
        case false => simp [applyMigration, setVersion, hb, hs1, hex, hs2, rowDirty_upsert]
        case true =>
          cases hc : env.commitOk
          case false => simp [applyMigration, setVersion, hb, hs1, hex, hs2, hc, rowDirty_upsert]
          case true => simp [applyMigration, setVersion, hb, hs1, hex, hs2, hc]

/-- C3 witness: instantiating the amended theorem where the up-script fails
shows the dirty marker is still standing. -/
theorem c3_witness :
    (applyMigration failU2Env ⟨[], (), 0, []⟩ ⟨2, "b", "m", "U2", ""⟩).1 =
        .error .scriptExecFailed ∧
    rowDirty (applyMigration failU2Env ⟨[], (), 0, []⟩ ⟨2, "b", "m", "U2", ""⟩).2.store
        "m" 2 = some true := by
  refine ⟨by rfl, ?_⟩
  exact (c3_markclean_before_commit Unit failU2Env ⟨[], (), 0, []⟩
    ⟨2, "b", "m", "U2", ""⟩).1 (by rfl)

/-- C6 counterexample: the claim says a file whose version prefix parses as a
negative integer is silently skipped and contributes no `MigrationFile`. The
loader uses `strconv.Atoi`, which accepts a sign: `-1_init.up.sql` is loaded
and contributes a record with version `-1`. -/
theorem c6_counterexample :
    loadMigrationFiles allOkEnv ⟨[("m", [.file "-1_init.up.sql" "X"])]⟩ "m" =
      .ok [⟨-1, "init", "m", "X", ""⟩] := by
  rfl

/-- C6 amended: a file is skipped exactly when it has no underscore or its
prefix before the first underscore fails `strconv.Atoi` — which parses signed
integers, so a negative prefix such as `-1` is accepted and the file is
merged into the migration set with version `-1`, not skipped. -/
theorem c6_loader_skip_rule :
    (∀ (S : Type) (env : Env S) (ns name content : String)
        (rest : List Entry) (acc : List MigrationFile),
      (∀ p0 p1 ps, splitU name = p0 :: p1 :: ps → atoi p0 = none) →
      loadEntries env ns (.file name content :: rest) acc = loadEntries env ns rest acc) ∧
    (∀ (S : Type) (env : Env S) (ns content : String) (rest : List Entry)
        (acc : List MigrationFile),
      env.readFileOk ns "-1_init.up.sql" = true →
      loadEntries env ns (.file "-1_init.up.sql" content :: rest) acc =
        loadEntries env ns rest (mergeUp acc ns (-1) content "init")) := by
  constructor
  · intro S env ns name content rest acc h
    rcases hs : splitU name with _ | ⟨p0, _ | ⟨p1, ps⟩⟩
    · simp only [loadEntries]
      rw [hs]
    · simp only [loadEntries]
      rw [hs]
    · have ha := h p0 p1 ps hs
      simp only [loadEntries]
      rw [hs]
      simp [ha]
  · intro S env ns content rest acc hrf
    have h1 : splitU "-1_init.up.sql" = ["-1", "init.up.sql"] := by rfl
    have h2 : atoi "-1" = some (-1) := by rfl
    have h3 : hasSuffix "-1_init.up.sql" ".up.sql" = true := by rfl
    have h4 : descOf "-1_init.up.sql" = "init" := by rfl
    simp only [loadEntries]
    rw [h1]
    simp [h2, hrf, h3, h4]

/-- C6 witness: the skip rule applied to a file without a parsable prefix. -/
theorem c6_witness :
    loadEntries allOkEnv "m" [.file "abc_x.up.sql" "U"] [] = .ok [] := by
  have h := c6_loader_skip_rule.1 Unit allOkEnv "m" "abc_x.up.sql" "U" [] []
    (by
      intro p0 p1 ps hs
      rw [show splitU "abc_x.up.sql" = ["abc", "x.up.sql"] from rfl] at hs
      injection hs with e1 e2
      rw [← e1]
      rfl)
  rw [h]
  rfl

lemma applyList_err_shape (S : Type) (env : Env S) :
    ∀ (l : List MigrationFile) (db : DB S) (e : MigErr),
      (applyList env db l).1 = .error e → ∃ v u, e = .applyFailed v u := by
  intro l
  induction l with
  | nil =>
    intro db e h
    simp [applyList] at h
  | cons m rest ih =>
    intro db e h
    rw [applyList] at h
    rcases hr : applyMigration env db m with ⟨res, db2⟩
    rw [hr] at h
    cases res with
    | ok _ => exact ih db2 e h
    | error u =>
      simp at h
      exact ⟨m.Version, u, h.symm⟩

lemma rollbackList_err_shape (S : Type) (env : Env S) :
    ∀ (l : List MigrationFile) (db : DB S) (e : MigErr),
      (rollbackList env db l).1 = .error e → ∃ v u, e = .rollbackStepFailed v u := by
  intro l
  induction l with
  | nil =>
    intro db e h
    simp [rollbackList] at h
  | cons m rest ih =>
    intro db e h
    rw [rollbackList] at h
    rcases hr : rollbackMigration env db m with ⟨res, db2⟩
    rw [hr] at h
    cases res with
    | ok _ => exact ih db2 e h
    | error u =>
      simp at h
      exact ⟨m.Version, u, h.symm⟩

lemma migrateNamespace_err_not_dirty (S : Type) (env : Env S) (fs : FS) (db : DB S)
    (ns : String) (h2 : (getCurrentVersion db.store ns).2 = false) :
    ∀ e, (MigrateNamespace env fs db ns).1 = .error e → e.isDirtyState = false := by
  intro e h
  by_cases he : env.ensureOk = true
  · by_cases hq : env.queryVersionOk ns = true
    · simp only [MigrateNamespace, he, hq, h2, if_true, Bool.false_eq_true, if_false] at h
      rcases hl : loadMigrationFiles env fs ns with e2 | migs
      · rw [hl] at h
        simp at h
        rw [← h]
        rfl
      · rw [hl] at h
        by_cases hm : migs.isEmpty
        · simp [hm] at h
        · by_cases hp :
            (migs.filter (fun m => (getCurrentVersion db.store ns).1 < m.Version)).isEmpty
          · simp [hm, hp] at h
          · simp only [hm, hp, Bool.false_eq_true, if_false] at h
            obtain ⟨v', u, he2⟩ := applyList_err_shape S env _ _ e h
            rw [he2]
            rfl
    · simp [MigrateNamespace, he, hq] at h
      rw [← h]
      rfl
  · simp [MigrateNamespace, he] at h
    rw [← h]
    rfl

lemma rollback_err_not_dirty (S : Type) (env : Env S) (fs : FS) (db : DB S)
    (ns : String) (steps : Int) (h2 : (getCurrentVersion db.store ns).2 = false) :
    ∀ e, (Rollback env fs db ns steps).1 = .error e → e.isDirtyState = false := by
  intro e h
  by_cases hq : env.queryVersionOk ns = true
  · simp only [Rollback, hq, h2, if_true, Bool.false_eq_true, if_false] at h
    by_cases hz : (getCurrentVersion db.store ns).1 = 0
    · simp [hz] at h
    · simp only [hz, if_false] at h
      rcases hl : loadMigrationFiles env fs ns with e2 | migs
      · rw [hl] at h
        simp at h
        rw [← h]
        rfl
      · rw [hl] at h
        by_cases ht :
            (selectRollback migs (getCurrentVersion db.store ns).1 steps).isEmpty
        · simp [ht] at h
        · simp only [ht, Bool.false_eq_true, if_false] at h
          obtain ⟨v', u, he2⟩ := rollbackList_err_shape S env _ _ e h
          rw [he2]
          rfl
  · simp [Rollback, hq] at h
    rw [← h]
    rfl

/-- C8: the dirty guard inspects only the maximum-version row. With rows
`(v, dirty)` and `(w, clean)` where `v < w`, `getCurrentVersion` returns
`(w, false)`, and neither `MigrateNamespace` nor `Rollback` can return a
`DirtyState` error despite the dirty row at `v`. -/
theorem c8_max_row_guard (S : Type) (env : Env S) (fs : FS) (ns : String)
    (v w : Int) (t1 t2 : Nat) (σ : S) (c : Nat) (tl : List TxEvent) (steps : Int)
    (hvw : v < w) :
    getCurrentVersion [⟨ns, v, true, t1⟩, ⟨ns, w, false, t2⟩] ns = (w, false) ∧
    (∀ e, (MigrateNamespace env fs ⟨[⟨ns, v, true, t1⟩, ⟨ns, w, false, t2⟩], σ, c, tl⟩ ns).1
        = .error e → e.isDirtyState = false) ∧
    (∀ e, (Rollback env fs ⟨[⟨ns, v, true, t1⟩, ⟨ns, w, false, t2⟩], σ, c, tl⟩ ns steps).1
        = .error e → e.isDirtyState = false) := by
  have hcur : getCurrentVersion [⟨ns, v, true, t1⟩, ⟨ns, w, false, t2⟩] ns = (w, false) := by
    simp [getCurrentVersion, maxRow, hvw]
  refine ⟨hcur, ?_, ?_⟩
  · exact migrateNamespace_err_not_dirty S env fs _ ns (by rw [show
      (DB.store ⟨[⟨ns, v, true, t1⟩, ⟨ns, w, false, t2⟩], σ, c, tl⟩) =
        [⟨ns, v, true, t1⟩, ⟨ns, w, false, t2⟩] from rfl, hcur])
  · exact rollback_err_not_dirty S env fs _ ns steps (by rw [show
      (DB.store ⟨[⟨ns, v, true, t1⟩, ⟨ns, w, false, t2⟩], σ, c, tl⟩) =
        [⟨ns, v, true, t1⟩, ⟨ns, w, false, t2⟩] from rfl, hcur])

/-- C8 witness: concrete rows `(1, dirty)` and `(2, clean)`. -/
theorem c8_witness :
    getCurrentVersion [⟨"m", 1, true, 0⟩, ⟨"m", 2, false, 1⟩] "m" = (2, false) ∧
    (∀ e, (MigrateNamespace allOkEnv ⟨[]⟩
        ⟨[⟨"m", 1, true, 0⟩, ⟨"m", 2, false, 1⟩], (), 0, []⟩ "m").1
        = .error e → e.isDirtyState = false) ∧
    (∀ e, (Rollback allOkEnv ⟨[]⟩
        ⟨[⟨"m", 1, true, 0⟩, ⟨"m", 2, false, 1⟩], (), 0, []⟩ "m" 1).1
        = .error e → e.isDirtyState = false) :=
  c8_max_row_guard Unit allOkEnv ⟨[]⟩ "m" 1 2 0 1 () 0 [] 1 (by decide)

lemma getCurrentVersion_free (st : List Rec) (ns : String)
    (h : ∀ r ∈ st, r.ns ≠ ns) : getCurrentVersion st ns = (0, false) := by
  have hf : st.filter (fun r => r.ns == ns) = [] := by
    rw [List.filter_eq_nil_iff]
    intro a ha
    simp [h a ha]
  rw [getCurrentVersion, hf]

lemma storeUpsert_keyFree (st : List Rec) (ns : String) (v : Int) (d : Bool) (t : Nat)
    (h : ∀ r ∈ st, ¬(r.ns = ns ∧ r.version = v)) :
    storeUpsert st ns v d t = st ++ [⟨ns, v, d, t⟩] := by
  have hany : ¬(st.any (fun r => r.ns == ns && r.version == v) = true) := by
    rw [List.any_eq_true]
    rintro ⟨x, hx, hpx⟩
    simp only [Bool.and_eq_true, beq_iff_eq] at hpx
    exact h x hx hpx
  rw [storeUpsert, if_neg hany]

lemma storeUpsert_snoc_hit (st : List Rec) (ns : String) (v : Int)
    (d0 : Bool) (t0 : Nat) (d : Bool) (t : Nat)
    (h : ∀ r ∈ st, ¬(r.ns = ns ∧ r.version = v)) :
    storeUpsert (st ++ [⟨ns, v, d0, t0⟩]) ns v d t = st ++ [⟨ns, v, d, t⟩] := by
  have hany : (st ++ [(⟨ns, v, d0, t0⟩ : Rec)]).any
      (fun r => r.ns == ns && r.version == v) = true := by
    rw [List.any_append]
    simp
  rw [storeUpsert, if_pos hany, List.map_append]
  congr 1
  · calc st.map (fun r =>
          if r.ns == ns && r.version == v then { r with dirty := d, appliedAt := t } else r)
        = st.map id := by
          apply List.map_congr_left
          intro r hr
          have hcond : ¬((r.ns == ns && r.version == v) = true) := by
            simp only [Bool.and_eq_true, beq_iff_eq]
            exact h r hr
          simp [hcond]
      _ = st := List.map_id st
  · simp

/-- C2: with versions 1, 2, 3 loaded and no prior rows for the namespace, if
version 1's up-script succeeds and version 2's fails, `MigrateNamespace`
returns version 2's wrapped script error; the persisted rows are exactly
`(1, dirty=false)` and `(2, dirty=true)`, the schema reflects only version
1's script (version 2's transaction was begun and rolled back, as the log
shows), and version 3 is never attempted (no row, no transaction, and the
result does not depend on version 3's script). -/
theorem c2_partial_failure (S : Type) (env : Env S) (fs : FS) (db : DB S)
    (ns : String) (m1 m2 m3 : MigrationFile) (σ1 : S)
    (he : env.ensureOk = true) (hq : env.queryVersionOk ns = true)
    (hb : env.beginOk = true) (hc : env.commitOk = true)
    (hsv : ∀ a b c2, env.setVersionOk a b c2 = true)
    (hfree : ∀ r ∈ db.store, r.ns ≠ ns)
    (hload : loadMigrationFiles env fs ns = .ok [m1, m2, m3])
    (hn1 : m1.Namespace = ns) (hv1 : m1.Version = 1)
    (hn2 : m2.Namespace = ns) (hv2 : m2.Version = 2)
    (hv3 : m3.Version = 3)
    (hex1 : env.exec m1.UpSQL db.schema = some σ1)
    (hex2 : env.exec m2.UpSQL σ1 = none) :
    MigrateNamespace env fs db ns =
      (.error (.applyFailed 2 .scriptExecFailed),
       { store := db.store ++ [⟨ns, 1, false, db.clock + 1⟩, ⟨ns, 2, true, db.clock + 2⟩],
         schema := σ1,
         clock := db.clock + 3,
         txlog := db.txlog ++ [.txBegin, .txCommit, .txBegin, .txRollback] }) := by
  have hcur : getCurrentVersion db.store ns = (0, false) :=
    getCurrentVersion_free db.store ns hfree
  have hkf1 : ∀ r ∈ db.store, ¬(r.ns = ns ∧ r.version = (1 : Int)) :=
    fun r hr hcon => hfree r hr hcon.1
  have hu1 : storeUpsert db.store ns 1 true db.clock =
      db.store ++ [⟨ns, 1, true, db.clock⟩] :=
    storeUpsert_keyFree db.store ns 1 true db.clock hkf1
  have hu2 : storeUpsert (db.store ++ [⟨ns, 1, true, db.clock⟩]) ns 1 false (db.clock + 1) =
      db.store ++ [⟨ns, 1, false, db.clock + 1⟩] :=
    storeUpsert_snoc_hit db.store ns 1 true db.clock false (db.clock + 1) hkf1
  have happ1 : applyMigration env db m1 =
      (.ok (), ⟨db.store ++ [⟨ns, 1, false, db.clock + 1⟩], σ1, db.clock + 2,
        db.txlog ++ [.txBegin, .txCommit]⟩) := by
    simp [applyMigration, hb, hsv, hn1, hv1, setVersion, hex1, hc, hu1, hu2]
  have hkf2 : ∀ r ∈ db.store ++ [⟨ns, 1, false, db.clock + 1⟩],
      ¬(r.ns = ns ∧ r.version = (2 : Int)) := by
    intro r hr hcon
    rcases List.mem_append.mp hr with h | h
    · exact hfree r h hcon.1
    · simp only [List.mem_singleton] at h
      subst h
      exact absurd hcon.2 (by simp)
  have hu3 : storeUpsert (db.store ++ [⟨ns, 1, false, db.clock + 1⟩]) ns 2 true
      (db.clock + 2) =
      db.store ++ [⟨ns, 1, false, db.clock + 1⟩, ⟨ns, 2, true, db.clock + 2⟩] := by
    rw [storeUpsert_keyFree _ _ _ _ _ hkf2, List.append_assoc]
    rfl
  have happ2 : applyMigration env
      ⟨db.store ++ [⟨ns, 1, false, db.clock + 1⟩], σ1, db.clock + 2,
        db.txlog ++ [.txBegin, .txCommit]⟩ m2 =
      (.error .scriptExecFailed,
       ⟨db.store ++ [⟨ns, 1, false, db.clock + 1⟩, ⟨ns, 2, true, db.clock + 2⟩], σ1,
        db.clock + 3, db.txlog ++ [.txBegin, .txCommit, .txBegin, .txRollback]⟩) := by
    simp [applyMigration, hb, hsv, hn2, hv2, setVersion, hex2, hu3, List.append_assoc]
  simp only [MigrateNamespace, he, hq, hcur, hload, if_true]
  simp only [hv1, hv2, hv3, List.isEmpty_cons, List.filter_cons, List.filter_nil]
  norm_num
  rw [applyList_cons, happ1]
  dsimp only
  rw [applyList_cons, happ2]
  dsimp only
  rw [hv2]

/-- C2 witness: a concrete three-version directory where `"U2"` fails. -/
theorem c2_witness :
    MigrateNamespace failU2Env
      ⟨[("m", [.file "1_a.up.sql" "U1", .file "2_b.up.sql" "U2", .file "3_c.up.sql" "U3"])]⟩
      ⟨[], (), 0, []⟩ "m" =
      (.error (.applyFailed 2 .scriptExecFailed),
       ⟨[⟨"m", 1, false, 1⟩, ⟨"m", 2, true, 2⟩], (), 3,
        [.txBegin, .txCommit, .txBegin, .txRollback]⟩) := by
  have h := c2_partial_failure Unit failU2Env
    ⟨[("m", [.file "1_a.up.sql" "U1", .file "2_b.up.sql" "U2", .file "3_c.up.sql" "U3"])]⟩
    ⟨[], (), 0, []⟩ "m" ⟨1, "a", "m", "U1", ""⟩ ⟨2, "b", "m", "U2", ""⟩
    ⟨3, "c", "m", "U3", ""⟩ ()
    (by rfl) (by rfl) (by rfl) (by rfl) (by intro a b c2; rfl)
    (by intro r hr; simp at hr) (by rfl)
    (by rfl) (by rfl) (by rfl) (by rfl) (by rfl) (by rfl) (by rfl)
  simpa using h

/-- C10: a version with only a down-file is loaded as a `MigrationFile` with
an empty up-script and empty description; with no prior rows for the
namespace it is pending, `MigrateNamespace` runs the empty up-script in a
normal apply unit (begin, mark dirty, execute, mark clean, commit) and
records the version with `dirty = false`. -/
theorem c10_down_only (S : Type) (env : Env S) (db : DB S) (ns d : String) (σ2 : S)
    (he : env.ensureOk = true) (hq : env.queryVersionOk ns = true)
    (hb : env.beginOk = true) (hc : env.commitOk = true)
    (hsv : ∀ a b c2, env.setVersionOk a b c2 = true)
    (hrd : env.readDirOk ns = true)
    (hrf : env.readFileOk ns "2_x.down.sql" = true)
    (hfree : ∀ r ∈ db.store, r.ns ≠ ns)
    (hex : env.exec "" db.schema = some σ2) :
    loadMigrationFiles env ⟨[(ns, [.file "2_x.down.sql" d])]⟩ ns =
      .ok [⟨2, "", ns, "", d⟩] ∧
    MigrateNamespace env ⟨[(ns, [.file "2_x.down.sql" d])]⟩ db ns =
      (.ok (), ⟨db.store ++ [⟨ns, 2, false, db.clock + 1⟩], σ2, db.clock + 2,
        db.txlog ++ [.txBegin, .txCommit]⟩) := by
  have hlk : List.lookup ns [(ns, [Entry.file "2_x.down.sql" d])] =
      some [Entry.file "2_x.down.sql" d] := by
    simp [List.lookup]
  have hsplit : splitU "2_x.down.sql" = ["2", "x.down.sql"] := rfl
  have hatoi : atoi "2" = some 2 := rfl
  have hup : hasSuffix "2_x.down.sql" ".up.sql" = false := rfl
  have hdn : hasSuffix "2_x.down.sql" ".down.sql" = true := rfl
  have hload : loadMigrationFiles env ⟨[(ns, [.file "2_x.down.sql" d])]⟩ ns =
      .ok [⟨2, "", ns, "", d⟩] := by
    simp only [loadMigrationFiles]
    rw [hlk]
    simp only [hrd, if_true]
    simp only [loadEntries]
    rw [hsplit]
    have hsort : sortByVersion [(⟨2, "", ns, "", d⟩ : MigrationFile)] =
        [⟨2, "", ns, "", d⟩] := rfl
    simp [hatoi, hrf, hup, hdn, mergeDown, hsort, Except.map]
  have hcur : getCurrentVersion db.store ns = (0, false) :=
    getCurrentVersion_free db.store ns hfree
  have hkf : ∀ r ∈ db.store, ¬(r.ns = ns ∧ r.version = (2 : Int)) :=
    fun r hr hcon => hfree r hr hcon.1
  have hu1 := storeUpsert_keyFree db.store ns 2 true db.clock hkf
  have hu2 := storeUpsert_snoc_hit db.store ns 2 true db.clock false (db.clock + 1) hkf
  have happ : applyMigration env db ⟨2, "", ns, "", d⟩ =
      (.ok (), ⟨db.store ++ [⟨ns, 2, false, db.clock + 1⟩], σ2, db.clock + 2,
        db.txlog ++ [.txBegin, .txCommit]⟩) := by
    simp [applyMigration, hb, hsv, setVersion, hex, hc, hu1, hu2]
  refine ⟨hload, ?_⟩
  simp only [MigrateNamespace, he, hq, hcur, hload, if_true]
  norm_num
  rw [applyList_cons, happ]
  dsimp only
  rw [applyList_nil]

/-- C10 witness: a concrete down-only directory is applied cleanly. -/
theorem c10_witness :
    loadMigrationFiles allOkEnv ⟨[("m", [.file "2_x.down.sql" "D"])]⟩ "m" =
      .ok [⟨2, "", "m", "", "D"⟩] ∧
    MigrateNamespace allOkEnv ⟨[("m", [.file "2_x.down.sql" "D"])]⟩
      ⟨[], (), 0, []⟩ "m" =
      (.ok (), ⟨[⟨"m", 2, false, 1⟩], (), 2, [.txBegin, .txCommit]⟩) := by
  have h := c10_down_only Unit allOkEnv ⟨[], (), 0, []⟩ "m" "D" ()
    (by rfl) (by rfl) (by rfl) (by rfl) (by intro a b c2; rfl) (by rfl) (by rfl)
    (by intro r hr; simp at hr) (by rfl)
  simpa using h

lemma migrateModules_nil (S : Type) (env : Env S) (fs : FS) (db : DB S) :
    migrateModules env fs db [] = (.ok (), db, []) := rfl

lemma migrateModules_cons (S : Type) (env : Env S) (fs : FS) (db : DB S)
    (n : String) (rest : List String) :
    migrateModules env fs db (n :: rest) =
      match MigrateNamespace env fs db n with
      | (.ok _, db2) =>
        ((migrateModules env fs db2 rest).1, (migrateModules env fs db2 rest).2.1,
          n :: (migrateModules env fs db2 rest).2.2)
      | (.error e, db2) => (.error (.moduleFailed n e), db2, [n]) := rfl

lemma MigrateAll_eq (S : Type) (env : Env S) (fs : FS) (db : DB S)
    (mods : List String) :
    MigrateAll env fs db mods =
      match MigrateNamespace env fs db "core" with
      | (.ok _, db2) =>
        ((migrateModules env fs db2 mods).1, (migrateModules env fs db2 mods).2.1,
          "core" :: (migrateModules env fs db2 mods).2.2)
      | (.error e, db2) => (.error (.coreFailed e), db2, ["core"]) := rfl

lemma migrateModules_spec (S : Type) (env : Env S) (fs : FS) :
    ∀ (l : List String) (db : DB S),
      ∃ k, k ≤ l.length ∧
        (migrateModules env fs db l).2.2 = l.take k ∧
        ((migrateModules env fs db l).1 = .ok () → k = l.length) ∧
        (∀ e, (migrateModules env fs db l).1 = .error e →
          1 ≤ k ∧ ∃ n e2 db2, e = .moduleFailed n e2 ∧ l.get? (k - 1) = some n ∧
            (MigrateNamespace env fs db2 n).1 = .error e2) := by
  intro l
  induction l with
  | nil =>
    intro db
    refine ⟨0, ?_, ?_, ?_, ?_⟩ <;> simp [migrateModules_nil]
  | cons n rest ih =>
    intro db
    rcases hr : MigrateNamespace env fs db n with ⟨res, db2⟩
    cases res with
    | error e0 =>
      refine ⟨1, ?_, ?_, ?_, ?_⟩
      · simp
      · rw [migrateModules_cons, hr]
        dsimp only
        simp
      · rw [migrateModules_cons, hr]
        intro h
        simp at h
      · intro e h
        rw [migrateModules_cons, hr] at h
        dsimp only at h
        have he2 : MigErr.moduleFailed n e0 = e := by
          simpa using h
        refine ⟨le_refl 1, n, e0, db, he2.symm, by rfl, ?_⟩
        rw [hr]
    | ok u =>
      cases u
      obtain ⟨k, hk, htr, hok, herr⟩ := ih db2
      refine ⟨k + 1, ?_, ?_, ?_, ?_⟩
      · simpa using Nat.succ_le_succ hk
      · rw [migrateModules_cons, hr]
        dsimp only
        rw [htr]
        simp [List.take_succ_cons]
      · rw [migrateModules_cons, hr]
        dsimp only
        intro h
        simp [hok h]
      · intro e h
        rw [migrateModules_cons, hr] at h
        dsimp only at h
        obtain ⟨hk1, n', e2, db', he', hg, hm⟩ := herr e h
        refine ⟨by omega, n', e2, db', he', ?_, hm⟩
        rw [show k + 1 - 1 = (k - 1) + 1 by omega, List.get?_cons_succ]
        exact hg

/-- C5: `MigrateAll` always attempts the hardcoded namespace `"core"` first
(even when it is not in the enabled list), then the enabled modules in list
order; the attempted namespaces are `"core"` followed by a prefix of the
list, all modules are attempted exactly when the result is success, and on
failure the error wraps and propagates the failing namespace's own error with
no later namespace attempted. -/
theorem c5_core_first (S : Type) (env : Env S) (fs : FS) (db : DB S)
    (mods : List String) :
    ∃ k, k ≤ mods.length ∧
      (MigrateAll env fs db mods).2.2 = "core" :: mods.take k ∧
      ((MigrateAll env fs db mods).1 = .ok () → k = mods.length) ∧
      (∀ e, (MigrateAll env fs db mods).1 = .error e →
        (∃ e2, e = .coreFailed e2 ∧ (MigrateNamespace env fs db "core").1 = .error e2 ∧
          k = 0) ∨
        (1 ≤ k ∧ ∃ n e2 db2, e = .moduleFailed n e2 ∧ mods.get? (k - 1) = some n ∧
          (MigrateNamespace env fs db2 n).1 = .error e2)) := by
  rcases hr : MigrateNamespace env fs db "core" with ⟨res, db2⟩
  cases res with
  | error e0 =>
    refine ⟨0, Nat.zero_le _, ?_, ?_, ?_⟩
    · rw [MigrateAll_eq, hr]
      dsimp only
      simp
    · rw [MigrateAll_eq, hr]
      intro h
      simp at h
    · intro e h
      rw [MigrateAll_eq, hr] at h
      dsimp only at h
      left
      have he2 : MigErr.coreFailed e0 = e := by
        simpa using h
      exact ⟨e0, he2.symm, by simp [hr], rfl⟩
  | ok u =>
    cases u
    obtain ⟨k, hk, htr, hok, herr⟩ := migrateModules_spec S env fs mods db2
    refine ⟨k, hk, ?_, ?_, ?_⟩
    · rw [MigrateAll_eq, hr]
      dsimp only
      rw [htr]
    · rw [MigrateAll_eq, hr]
      dsimp only
      exact hok
    · intro e h
      rw [MigrateAll_eq, hr] at h
      dsimp only at h
      exact Or.inr (herr e h)

/-- C5 witness: with one enabled module, the attempted order is
`["core", "alpha"]` although `"core"` is not in the enabled list. -/
theorem c5_witness :
    (MigrateAll allOkEnv ⟨[]⟩ ⟨[], (), 0, []⟩ ["alpha"]).2.2 = ["core", "alpha"] := by
  obtain ⟨k, hk, htr, hok, _⟩ :=
    c5_core_first Unit allOkEnv ⟨[]⟩ ⟨[], (), 0, []⟩ ["alpha"]
  have hke : k = 1 := hok (by rfl)
  rw [htr, hke]
  rfl

lemma load_three (S : Type) (env : Env S) (ns u1 d1 u2 d2 u3 d3 : String)
    (hrd : env.readDirOk ns = true)
    (hrf : ∀ f, env.readFileOk ns f = true) :
    loadMigrationFiles env (fs3 ns u1 d1 u2 d2 u3 d3) ns =
      .ok [⟨1, "a", ns, u1, d1⟩, ⟨2, "b", ns, u2, d2⟩, ⟨3, "c", ns, u3, d3⟩] := by
  have hlk : List.lookup ns (fs3 ns u1 d1 u2 d2 u3 d3).namespaces =
      some [.file "1_a.up.sql" u1, .file "1_a.down.sql" d1,
            .file "2_b.up.sql" u2, .file "2_b.down.sql" d2,
            .file "3_c.up.sql" u3, .file "3_c.down.sql" d3] := by
    simp [fs3, List.lookup]
  have s1u : splitU "1_a.up.sql" = ["1", "a.up.sql"] := rfl
  have s1d : splitU "1_a.down.sql" = ["1", "a.down.sql"] := rfl
  have s2u : splitU "2_b.up.sql" = ["2", "b.up.sql"] := rfl
  have s2d : splitU "2_b.down.sql" = ["2", "b.down.sql"] := rfl
  have s3u : splitU "3_c.up.sql" = ["3", "c.up.sql"] := rfl
  have s3d : splitU "3_c.down.sql" = ["3", "c.down.sql"] := rfl
  have a1 : atoi "1" = some 1 := rfl
  have a2 : atoi "2" = some 2 := rfl
  have a3 : atoi "3" = some 3 := rfl
  simp only [loadMigrationFiles]
  rw [hlk]
  simp only [hrd, if_true]
  simp only [loadEntries, s1u, s1d, s2u, s2d, s3u, s3d, a1, a2, a3]
  norm_num [hrf, mergeUp, mergeDown]
  rfl


lemma applyThree (S : Type) (env : Env S) (ns u1 d1 u2 d2 u3 d3 : String)
    (g : String → S → S) (σ : S) (c : Nat) (tl : List TxEvent)
    (he : env.ensureOk = true) (hq : env.queryVersionOk ns = true)
    (hb : env.beginOk = true) (hc : env.commitOk = true)
    (hsv : ∀ a b c2, env.setVersionOk a b c2 = true)
    (hrd : env.readDirOk ns = true)
    (hrf : ∀ f, env.readFileOk ns f = true)
    (hexec : ∀ q s, env.exec q s = some (g q s)) :
    MigrateNamespace env (fs3 ns u1 d1 u2 d2 u3 d3) ⟨[], σ, c, tl⟩ ns =
      (.ok (), ⟨[⟨ns, 1, false, c + 1⟩, ⟨ns, 2, false, c + 3⟩, ⟨ns, 3, false, c + 5⟩],
        g u3 (g u2 (g u1 σ)), c + 6,
        tl ++ [.txBegin, .txCommit, .txBegin, .txCommit, .txBegin, .txCommit]⟩) := by
  have hload := load_three S env ns u1 d1 u2 d2 u3 d3 hrd hrf
  have hcur0 : getCurrentVersion ([] : List Rec) ns = (0, false) := rfl
  have h1 : storeUpsert [] ns 1 true c = [⟨ns, 1, true, c⟩] := by
    simp [storeUpsert]
  have h2 : storeUpsert [⟨ns, 1, true, c⟩] ns 1 false (c + 1) = [⟨ns, 1, false, c + 1⟩] := by
    simpa using storeUpsert_snoc_hit [] ns 1 true c false (c + 1) (by simp)
  have hkf2 : ∀ r ∈ [(⟨ns, 1, false, c + 1⟩ : Rec)], ¬(r.ns = ns ∧ r.version = (2 : Int)) := by
    intro r hr hcon
    simp only [List.mem_singleton] at hr
    subst hr
    exact absurd hcon.2 (by simp)
  have h3 : storeUpsert [⟨ns, 1, false, c + 1⟩] ns 2 true (c + 2) =
      [⟨ns, 1, false, c + 1⟩, ⟨ns, 2, true, c + 2⟩] := by
    simpa using storeUpsert_keyFree [⟨ns, 1, false, c + 1⟩] ns 2 true (c + 2) hkf2
  have h4 : storeUpsert [⟨ns, 1, false, c + 1⟩, ⟨ns, 2, true, c + 2⟩] ns 2 false (c + 3) =
      [⟨ns, 1, false, c + 1⟩, ⟨ns, 2, false, c + 3⟩] := by
    simpa using storeUpsert_snoc_hit [⟨ns, 1, false, c + 1⟩] ns 2 true (c + 2) false (c + 3) hkf2
  have hkf3 : ∀ r ∈ [(⟨ns, 1, false, c + 1⟩ : Rec), ⟨ns, 2, false, c + 3⟩],
      ¬(r.ns = ns ∧ r.version = (3 : Int)) := by
    intro r hr hcon
    simp only [List.mem_cons, List.mem_singleton] at hr
    rcases hr with hr | hr | hr
    · subst hr
      exact absurd hcon.2 (by simp)
    · subst hr
      exact absurd hcon.2 (by simp)
    · simp at hr
  have h5 : storeUpsert [⟨ns, 1, false, c + 1⟩, ⟨ns, 2, false, c + 3⟩] ns 3 true (c + 4) =
      [⟨ns, 1, false, c + 1⟩, ⟨ns, 2, false, c + 3⟩, ⟨ns, 3, true, c + 4⟩] := by
    simpa using
      storeUpsert_keyFree [⟨ns, 1, false, c + 1⟩, ⟨ns, 2, false, c + 3⟩] ns 3 true (c + 4) hkf3
  have h6 : storeUpsert [⟨ns, 1, false, c + 1⟩, ⟨ns, 2, false, c + 3⟩, ⟨ns, 3, true, c + 4⟩]
      ns 3 false (c + 5) =
      [⟨ns, 1, false, c + 1⟩, ⟨ns, 2, false, c + 3⟩, ⟨ns, 3, false, c + 5⟩] := by
    simpa using
      storeUpsert_snoc_hit [⟨ns, 1, false, c + 1⟩, ⟨ns, 2, false, c + 3⟩] ns 3 true (c + 4)
        false (c + 5) hkf3
  have happ1 : applyMigration env ⟨[], σ, c, tl⟩ ⟨1, "a", ns, u1, d1⟩ =
      (.ok (), ⟨[⟨ns, 1, false, c + 1⟩], g u1 σ, c + 2, tl ++ [.txBegin, .txCommit]⟩) := by
    simp [applyMigration, hb, hsv, setVersion, hexec, hc, h1, h2]
  have happ2 : applyMigration env ⟨[⟨ns, 1, false, c + 1⟩], g u1 σ, c + 2,
      tl ++ [.txBegin, .txCommit]⟩ ⟨2, "b", ns, u2, d2⟩ =
      (.ok (), ⟨[⟨ns, 1, false, c + 1⟩, ⟨ns, 2, false, c + 3⟩], g u2 (g u1 σ), c + 4,
        tl ++ [.txBegin, .txCommit, .txBegin, .txCommit]⟩) := by
    simp [applyMigration, hb, hsv, setVersion, hexec, hc, h3, h4, List.append_assoc]
  have happ3 : applyMigration env ⟨[⟨ns, 1, false, c + 1⟩, ⟨ns, 2, false, c + 3⟩],
      g u2 (g u1 σ), c + 4, tl ++ [.txBegin, .txCommit, .txBegin, .txCommit]⟩
      ⟨3, "c", ns, u3, d3⟩ =
      (.ok (), ⟨[⟨ns, 1, false, c + 1⟩, ⟨ns, 2, false, c + 3⟩, ⟨ns, 3, false, c + 5⟩],
        g u3 (g u2 (g u1 σ)), c + 6,
        tl ++ [.txBegin, .txCommit, .txBegin, .txCommit, .txBegin, .txCommit]⟩) := by
    simp [applyMigration, hb, hsv, setVersion, hexec, hc, h5, h6, List.append_assoc]
  simp only [MigrateNamespace, he, hq, hcur0, hload, if_true]
  norm_num
  rw [applyList_cons, happ1]
  dsimp only
  rw [applyList_cons, happ2]
  dsimp only
  rw [applyList_cons, happ3]
  dsimp only
  rw [applyList_nil]


/-- C4: starting from an empty version store, applying a directory with
versions 1, 2, 3 (each with up- and down-scripts) and then rolling back 3
steps returns the namespace to version 0 with no rows, and re-applying
produces the same persisted row set (versions 1, 2, 3, each `dirty = false`)
as the first apply. -/
theorem c4_roundtrip (S : Type) (env : Env S) (ns u1 d1 u2 d2 u3 d3 : String)
    (g : String → S → S) (σ : S) (c : Nat) (tl : List TxEvent)
    (he : env.ensureOk = true) (hq : env.queryVersionOk ns = true)
    (hb : env.beginOk = true) (hc : env.commitOk = true)
    (hsv : ∀ a b c2, env.setVersionOk a b c2 = true)
    (hdl : ∀ a b, env.deleteVersionOk a b = true)
    (hrd : env.readDirOk ns = true)
    (hrf : ∀ f, env.readFileOk ns f = true)
    (hexec : ∀ q s, env.exec q s = some (g q s))
    (hd1 : d1 ≠ "") (hd2 : d2 ≠ "") (hd3 : d3 ≠ "") :
    (MigrateNamespace env (fs3 ns u1 d1 u2 d2 u3 d3) ⟨[], σ, c, tl⟩ ns).1 = .ok () ∧
    (MigrateNamespace env (fs3 ns u1 d1 u2 d2 u3 d3) ⟨[], σ, c, tl⟩ ns).2.store.map
        (fun r => (r.version, r.dirty)) = [(1, false), (2, false), (3, false)] ∧
    (Rollback env (fs3 ns u1 d1 u2 d2 u3 d3)
        (MigrateNamespace env (fs3 ns u1 d1 u2 d2 u3 d3) ⟨[], σ, c, tl⟩ ns).2 ns 3).1 =
      .ok () ∧
    getCurrentVersion
        (Rollback env (fs3 ns u1 d1 u2 d2 u3 d3)
          (MigrateNamespace env (fs3 ns u1 d1 u2 d2 u3 d3) ⟨[], σ, c, tl⟩ ns).2 ns 3).2.store
        ns = (0, false) ∧
    (MigrateNamespace env (fs3 ns u1 d1 u2 d2 u3 d3)
        (Rollback env (fs3 ns u1 d1 u2 d2 u3 d3)
          (MigrateNamespace env (fs3 ns u1 d1 u2 d2 u3 d3) ⟨[], σ, c, tl⟩ ns).2 ns 3).2
        ns).1 = .ok () ∧
    (MigrateNamespace env (fs3 ns u1 d1 u2 d2 u3 d3)
        (Rollback env (fs3 ns u1 d1 u2 d2 u3 d3)
          (MigrateNamespace env (fs3 ns u1 d1 u2 d2 u3 d3) ⟨[], σ, c, tl⟩ ns).2 ns 3).2
        ns).2.store.map (fun r => (r.version, r.dirty)) =
      (MigrateNamespace env (fs3 ns u1 d1 u2 d2 u3 d3) ⟨[], σ, c, tl⟩ ns).2.store.map
        (fun r => (r.version, r.dirty)) := by
  have hload := load_three S env ns u1 d1 u2 d2 u3 d3 hrd hrf
  have hm1 := applyThree S env ns u1 d1 u2 d2 u3 d3 g σ c tl he hq hb hc hsv hrd hrf hexec
  have hcurA : getCurrentVersion
      [(⟨ns, 1, false, c + 1⟩ : Rec), ⟨ns, 2, false, c + 3⟩, ⟨ns, 3, false, c + 5⟩] ns =
      (3, false) := by
    simp [getCurrentVersion, maxRow]
  have hsel : selectRollback
      [(⟨1, "a", ns, u1, d1⟩ : MigrationFile), ⟨2, "b", ns, u2, d2⟩, ⟨3, "c", ns, u3, d3⟩]
      3 3 = [⟨3, "c", ns, u3, d3⟩, ⟨2, "b", ns, u2, d2⟩, ⟨1, "a", ns, u1, d1⟩] := rfl
  have hdel3 : storeDelete
      [(⟨ns, 1, false, c + 1⟩ : Rec), ⟨ns, 2, false, c + 3⟩, ⟨ns, 3, false, c + 5⟩] ns 3 =
      [⟨ns, 1, false, c + 1⟩, ⟨ns, 2, false, c + 3⟩] := by
    simp [storeDelete]
  have hdel2 : storeDelete [(⟨ns, 1, false, c + 1⟩ : Rec), ⟨ns, 2, false, c + 3⟩] ns 2 =
      [⟨ns, 1, false, c + 1⟩] := by
    simp [storeDelete]
  have hdel1 : storeDelete [(⟨ns, 1, false, c + 1⟩ : Rec)] ns 1 = [] := by
    simp [storeDelete]
  have hrb3 : rollbackMigration env
      ⟨[⟨ns, 1, false, c + 1⟩, ⟨ns, 2, false, c + 3⟩, ⟨ns, 3, false, c + 5⟩],
        g u3 (g u2 (g u1 σ)), c + 6,
        tl ++ [.txBegin, .txCommit, .txBegin, .txCommit, .txBegin, .txCommit]⟩
      ⟨3, "c", ns, u3, d3⟩ =
      (.ok (), ⟨[⟨ns, 1, false, c + 1⟩, ⟨ns, 2, false, c + 3⟩],
        g d3 (g u3 (g u2 (g u1 σ))), c + 6,
        tl ++ [.txBegin, .txCommit, .txBegin, .txCommit, .txBegin, .txCommit,
          .txBegin, .txCommit]⟩) := by
    simp [rollbackMigration, hb, hd3, hexec, hdl, hc, hdel3, List.append_assoc]
  have hrb2 : rollbackMigration env
      ⟨[⟨ns, 1, false, c + 1⟩, ⟨ns, 2, false, c + 3⟩],
        g d3 (g u3 (g u2 (g u1 σ))), c + 6,
        tl ++ [.txBegin, .txCommit, .txBegin, .txCommit, .txBegin, .txCommit,
          .txBegin, .txCommit]⟩
      ⟨2, "b", ns, u2, d2⟩ =
      (.ok (), ⟨[⟨ns, 1, false, c + 1⟩],
        g d2 (g d3 (g u3 (g u2 (g u1 σ)))), c + 6,
        tl ++ [.txBegin, .txCommit, .txBegin, .txCommit, .txBegin, .txCommit,
          .txBegin, .txCommit, .txBegin, .txCommit]⟩) := by
    simp [rollbackMigration, hb, hd2, hexec, hdl, hc, hdel2, List.append_assoc]
  have hrb1 : rollbackMigration env
      ⟨[⟨ns, 1, false, c + 1⟩],
        g d2 (g d3 (g u3 (g u2 (g u1 σ)))), c + 6,
        tl ++ [.txBegin, .txCommit, .txBegin, .txCommit, .txBegin, .txCommit,
          .txBegin, .txCommit, .txBegin, .txCommit]⟩
      ⟨1, "a", ns, u1, d1⟩ =
      (.ok (), ⟨[],
        g d1 (g d2 (g d3 (g u3 (g u2 (g u1 σ))))), c + 6,
        tl ++ [.txBegin, .txCommit, .txBegin, .txCommit, .txBegin, .txCommit,
          .txBegin, .txCommit, .txBegin, .txCommit, .txBegin, .txCommit]⟩) := by
    simp [rollbackMigration, hb, hd1, hexec, hdl, hc, hdel1, List.append_assoc]
  have hro : Rollback env (fs3 ns u1 d1 u2 d2 u3 d3)
      ⟨[⟨ns, 1, false, c + 1⟩, ⟨ns, 2, false, c + 3⟩, ⟨ns, 3, false, c + 5⟩],
        g u3 (g u2 (g u1 σ)), c + 6,
        tl ++ [.txBegin, .txCommit, .txBegin, .txCommit, .txBegin, .txCommit]⟩ ns 3 =
      (.ok (), ⟨[],
        g d1 (g d2 (g d3 (g u3 (g u2 (g u1 σ))))), c + 6,
        tl ++ [.txBegin, .txCommit, .txBegin, .txCommit, .txBegin, .txCommit,
          .txBegin, .txCommit, .txBegin, .txCommit, .txBegin, .txCommit]⟩) := by
    simp only [Rollback, hq, hcurA, hload, if_true]
    norm_num [hsel]
    rw [rollbackList_cons, hrb3]
    dsimp only
    rw [rollbackList_cons, hrb2]
    dsimp only
    rw [rollbackList_cons, hrb1]
    dsimp only
    rw [rollbackList_nil]
  have hm2 := applyThree S env ns u1 d1 u2 d2 u3 d3 g
    (g d1 (g d2 (g d3 (g u3 (g u2 (g u1 σ)))))) (c + 6)
    (tl ++ [.txBegin, .txCommit, .txBegin, .txCommit, .txBegin, .txCommit,
      .txBegin, .txCommit, .txBegin, .txCommit, .txBegin, .txCommit])
    he hq hb hc hsv hrd hrf hexec
  rw [hm1]
  dsimp only
  rw [hro]
  dsimp only
  rw [hm2]
  dsimp only
  refine ⟨rfl, by simp, rfl, rfl, rfl, by simp⟩


/-- C4 witness: the round trip at a concrete three-version directory. -/
theorem c4_witness :
    (MigrateNamespace allOkEnv (fs3 "m" "U1" "D1" "U2" "D2" "U3" "D3")
        ⟨[], (), 0, []⟩ "m").1 = .ok () ∧
    (MigrateNamespace allOkEnv (fs3 "m" "U1" "D1" "U2" "D2" "U3" "D3")
        ⟨[], (), 0, []⟩ "m").2.store.map (fun r => (r.version, r.dirty)) =
      [(1, false), (2, false), (3, false)] ∧
    (Rollback allOkEnv (fs3 "m" "U1" "D1" "U2" "D2" "U3" "D3")
        (MigrateNamespace allOkEnv (fs3 "m" "U1" "D1" "U2" "D2" "U3" "D3")
          ⟨[], (), 0, []⟩ "m").2 "m" 3).1 = .ok () ∧
    getCurrentVersion
        (Rollback allOkEnv (fs3 "m" "U1" "D1" "U2" "D2" "U3" "D3")
          (MigrateNamespace allOkEnv (fs3 "m" "U1" "D1" "U2" "D2" "U3" "D3")
            ⟨[], (), 0, []⟩ "m").2 "m" 3).2.store "m" = (0, false) ∧
    (MigrateNamespace allOkEnv (fs3 "m" "U1" "D1" "U2" "D2" "U3" "D3")
        (Rollback allOkEnv (fs3 "m" "U1" "D1" "U2" "D2" "U3" "D3")
          (MigrateNamespace allOkEnv (fs3 "m" "U1" "D1" "U2" "D2" "U3" "D3")
            ⟨[], (), 0, []⟩ "m").2 "m" 3).2 "m").1 = .ok () ∧
    (MigrateNamespace allOkEnv (fs3 "m" "U1" "D1" "U2" "D2" "U3" "D3")
        (Rollback allOkEnv (fs3 "m" "U1" "D1" "U2" "D2" "U3" "D3")
          (MigrateNamespace allOkEnv (fs3 "m" "U1" "D1" "U2" "D2" "U3" "D3")
            ⟨[], (), 0, []⟩ "m").2 "m" 3).2 "m").2.store.map
        (fun r => (r.version, r.dirty)) =
      (MigrateNamespace allOkEnv (fs3 "m" "U1" "D1" "U2" "D2" "U3" "D3")
        ⟨[], (), 0, []⟩ "m").2.store.map (fun r => (r.version, r.dirty)) :=
  c4_roundtrip Unit allOkEnv "m" "U1" "D1" "U2" "D2" "U3" "D3" (fun _ _ => ()) () 0 []
    rfl rfl rfl rfl (fun _ _ _ => rfl) (fun _ _ => rfl) rfl (fun _ => rfl)
    (fun _ _ => rfl) (by decide) (by decide) (by decide)

lemma loadEntries_cons_ok (S : Type) (env : Env S) (ns : String) (e : Entry)
    (rest : List Entry) (acc : List MigrationFile) (l : List MigrationFile)
    (h : loadEntries env ns (e :: rest) acc = .ok l) :
    ∃ acc2, loadEntries env ns rest acc2 = .ok l ∧
      (∀ name content, e = Entry.file name content →
        (∃ p0 p1 ps, splitU name = p0 :: p1 :: ps ∧ (atoi p0).isSome = true) →
        env.readFileOk ns name = true) := by
  cases e with
  | dir dn =>
    refine ⟨acc, h, ?_⟩
    intro name content heq
    cases heq
  | file fn fc =>
    rcases hs : splitU fn with _ | ⟨p0, _ | ⟨p1, ps⟩⟩
    · have h2 : loadEntries env ns rest acc = .ok l := by
        simp only [loadEntries] at h
        rw [hs] at h
        exact h
      refine ⟨acc, h2, ?_⟩
      intro name content heq hshape
      injection heq with e1 e2
      subst e1
      obtain ⟨q0, q1, qs, hsp, _⟩ := hshape
      rw [hs] at hsp
      cases hsp
    · have h2 : loadEntries env ns rest acc = .ok l := by
        simp only [loadEntries] at h
        rw [hs] at h
        exact h
      refine ⟨acc, h2, ?_⟩
      intro name content heq hshape
      injection heq with e1 e2
      subst e1
      obtain ⟨q0, q1, qs, hsp, _⟩ := hshape
      rw [hs] at hsp
      cases hsp
    · rcases hat : atoi p0 with _ | v
      · have h2 : loadEntries env ns rest acc = .ok l := by
          simp only [loadEntries] at h
          rw [hs] at h
          dsimp only at h
          rw [hat] at h
          exact h
        refine ⟨acc, h2, ?_⟩
        intro name content heq hshape
        injection heq with e1 e2
        subst e1
        obtain ⟨q0, q1, qs, hsp, hsome⟩ := hshape
        rw [hs] at hsp
        injection hsp with hq0 hrest2
        rw [← hq0, hat] at hsome
        simp at hsome
      · by_cases hrf : env.readFileOk ns fn = true
        · by_cases hup : hasSuffix fn ".up.sql" = true
          · have h2 : loadEntries env ns rest (mergeUp acc ns v fc (descOf fn)) = .ok l := by
              simp only [loadEntries] at h
              rw [hs] at h
              dsimp only at h
              rw [hat] at h
              dsimp only at h
              rw [if_pos hrf, if_pos hup] at h
              exact h
            refine ⟨_, h2, ?_⟩
            intro name content heq _
            injection heq with e1 e2
            rw [← e1]
            exact hrf
          · by_cases hdn : hasSuffix fn ".down.sql" = true
            · have h2 : loadEntries env ns rest (mergeDown acc ns v fc) = .ok l := by
                simp only [loadEntries] at h
                rw [hs] at h
                dsimp only at h
                rw [hat] at h
                dsimp only at h
                rw [if_pos hrf, if_neg hup, if_pos hdn] at h
                exact h
              refine ⟨_, h2, ?_⟩
              intro name content heq _
              injection heq with e1 e2
              rw [← e1]
              exact hrf
            · have h2 : loadEntries env ns rest acc = .ok l := by
                simp only [loadEntries] at h
                rw [hs] at h
                dsimp only at h
                rw [hat] at h
                dsimp only at h
                rw [if_pos hrf, if_neg hup, if_neg hdn] at h
                exact h
              refine ⟨acc, h2, ?_⟩
              intro name content heq _
              injection heq with e1 e2
              rw [← e1]
              exact hrf
        · exfalso
          simp only [loadEntries] at h
          rw [hs] at h
          dsimp only at h
          rw [hat] at h
          dsimp only at h
          rw [if_neg hrf] at h
          cases h

lemma loadEntries_read_ok (S : Type) (env : Env S) (ns : String) :
    ∀ (entries : List Entry) (acc l : List MigrationFile),
      loadEntries env ns entries acc = .ok l →
      ∀ name content, Entry.file name content ∈ entries →
        (∃ p0 p1 ps, splitU name = p0 :: p1 :: ps ∧ (atoi p0).isSome = true) →
        env.readFileOk ns name = true := by
  intro entries
  induction entries with
  | nil =>
    intro acc l h name content hmem
    simp at hmem
  | cons e rest ih =>
    intro acc l h name content hmem hshape
    obtain ⟨acc2, h2, hhead⟩ := loadEntries_cons_ok S env ns e rest acc l h
    rcases List.mem_cons.mp hmem with heq | hmem2
    · exact hhead name content heq.symm hshape
    · exact ih acc2 l h2 name content hmem2 hshape

lemma statusLoop_ok (S : Type) (env : Env S) (fs : FS) (db : DB S) :
    ∀ (l : List String) (out : List MigrationStatus),
      statusLoop env fs db l = .ok out →
      ∀ n ∈ l, env.queryVersionOk n = true ∧
        ∃ ml, loadMigrationFiles env fs n = .ok ml := by
  intro l
  induction l with
  | nil =>
    intro out h n hn
    simp at hn
  | cons n0 rest ih =>
    intro out h n hn
    by_cases hq : env.queryVersionOk n0 = true
    · simp only [statusLoop, hq, if_true] at h
      rcases hl : loadMigrationFiles env fs n0 with e | migs
      · rw [hl] at h
        cases h
      · rw [hl] at h
        rcases hrest : statusLoop env fs db rest with e2 | out2
        · rw [hrest] at h
          cases h
        · rcases List.mem_cons.mp hn with heq | hmem
          · subst heq
            exact ⟨hq, migs, hl⟩
          · exact ih out2 hrest n hmem
    · simp only [statusLoop, hq, if_false] at h
      cases h


/-- C7 amended: for `MigrateNamespace`, `applyMigration`,
`rollbackMigration`, `Rollback`, `Version` and the loader, a successful
result implies every store or filesystem call the operation made succeeded
(so every such failure is propagated to the caller); `Status` propagates its
table-creation, namespace-query, per-namespace version-query and load
failures — but not a failure of the root-directory listing, which it
silently ignores (see the counterexample). -/
theorem c7_error_wrapping (S : Type) (env : Env S) (fs : FS) (db : DB S)
    (ns : String) (steps : Int) (mig : MigrationFile) (mods : List String) :
    ((MigrateNamespace env fs db ns).1 = .ok () →
      env.ensureOk = true ∧ env.queryVersionOk ns = true ∧
      ∃ l, loadMigrationFiles env fs ns = .ok l) ∧
    ((applyMigration env db mig).1 = .ok () →
      env.beginOk = true ∧ env.setVersionOk mig.Namespace mig.Version true = true ∧
      (env.exec mig.UpSQL db.schema).isSome = true ∧
      env.setVersionOk mig.Namespace mig.Version false = true ∧ env.commitOk = true) ∧
    ((rollbackMigration env db mig).1 = .ok () →
      env.beginOk = true ∧ mig.DownSQL ≠ "" ∧
      (env.exec mig.DownSQL db.schema).isSome = true ∧
      env.deleteVersionOk mig.Namespace mig.Version = true ∧ env.commitOk = true) ∧
    ((Rollback env fs db ns steps).1 = .ok () →
      env.queryVersionOk ns = true ∧
      ((getCurrentVersion db.store ns).1 ≠ 0 →
        ∃ l, loadMigrationFiles env fs ns = .ok l)) ∧
    (∀ x, Version env db ns = .ok x → env.queryVersionOk ns = true) ∧
    ((MigrateAll env fs db mods).1 = .ok () →
      (MigrateNamespace env fs db "core").1 = .ok ()) ∧
    (∀ out, Status env fs db = .ok out →
      env.ensureOk = true ∧ env.statusQueryOk = true ∧
      ∀ n ∈ statusNamespaces env fs db,
        env.queryVersionOk n = true ∧ ∃ ml, loadMigrationFiles env fs n = .ok ml) ∧
    (∀ l entries, loadMigrationFiles env fs ns = .ok l →
      fs.namespaces.lookup ns = some entries →
      env.readDirOk ns = true ∧
      ∀ name content, Entry.file name content ∈ entries →
        (∃ p0 p1 ps, splitU name = p0 :: p1 :: ps ∧ (atoi p0).isSome = true) →
        env.readFileOk ns name = true) := by
  refine ⟨?_, ?_, ?_, ?_, ?_, ?_, ?_, ?_⟩
  · intro h
    by_cases he2 : env.ensureOk = true
    · by_cases hq2 : env.queryVersionOk ns = true
      · refine ⟨he2, hq2, ?_⟩
        by_cases hdirty : (getCurrentVersion db.store ns).2 = true
        · simp [MigrateNamespace, he2, hq2, hdirty] at h
        · rcases hl : loadMigrationFiles env fs ns with e | migs
          · simp [MigrateNamespace, he2, hq2, hdirty, hl] at h
          · exact ⟨migs, rfl⟩
      · simp [MigrateNamespace, he2, hq2] at h
    · simp [MigrateNamespace, he2] at h
  · intro h
    cases hb2 : env.beginOk
    · simp [applyMigration, hb2] at h
    · cases hs1 : env.setVersionOk mig.Namespace mig.Version true
      · simp [applyMigration, hb2, hs1] at h
      · rcases hex : env.exec mig.UpSQL db.schema with _ | s2
        · simp [applyMigration, setVersion, hb2, hs1, hex] at h
        · cases hs2 : env.setVersionOk mig.Namespace mig.Version false
          · simp [applyMigration, setVersion, hb2, hs1, hex, hs2] at h
          · cases hc2 : env.commitOk
            · simp [applyMigration, setVersion, hb2, hs1, hex, hs2, hc2] at h
            · exact ⟨rfl, rfl, rfl, rfl, rfl⟩
  · intro h
    cases hb2 : env.beginOk
    · simp [rollbackMigration, hb2] at h
    · by_cases hdq : mig.DownSQL = ""
      · simp [rollbackMigration, hb2, hdq] at h
      · rcases hex : env.exec mig.DownSQL db.schema with _ | s2
        · simp [rollbackMigration, hb2, hdq, hex] at h
        · cases hdl2 : env.deleteVersionOk mig.Namespace mig.Version
          · simp [rollbackMigration, hb2, hdq, hex, hdl2] at h
          · cases hc2 : env.commitOk
            · simp [rollbackMigration, hb2, hdq, hex, hdl2, hc2] at h
            · exact ⟨rfl, hdq, rfl, rfl, rfl⟩
  · intro h
    by_cases hq2 : env.queryVersionOk ns = true
    · refine ⟨hq2, ?_⟩
      intro hnz
      by_cases hdirty : (getCurrentVersion db.store ns).2 = true
      · simp [Rollback, hq2, hdirty] at h
      · rcases hl : loadMigrationFiles env fs ns with e | migs
        · simp [Rollback, hq2, hdirty, hnz, hl] at h
        · exact ⟨migs, rfl⟩
    · simp [Rollback, hq2] at h
  · intro x h
    by_cases hq2 : env.queryVersionOk ns = true
    · exact hq2
    · simp [Version, hq2] at h
  · intro h
    rw [MigrateAll_eq] at h
    rcases hcore : MigrateNamespace env fs db "core" with ⟨res, db2⟩
    rw [hcore] at h
    cases res with
    | ok u =>
      cases u
      rfl
    | error e =>
      dsimp only at h
      cases h
  · intro out h
    by_cases he2 : env.ensureOk = true
    · by_cases hsq : env.statusQueryOk = true
      · simp only [Status, he2, hsq, if_true] at h
        exact ⟨he2, hsq, statusLoop_ok S env fs db _ out h⟩
      · simp [Status, he2, hsq] at h
    · simp [Status, he2] at h
  · intro l entries h hlk
    simp only [loadMigrationFiles] at h
    rw [hlk] at h
    dsimp only at h
    by_cases hrd : env.readDirOk ns = true
    · refine ⟨hrd, ?_⟩
      rw [if_pos hrd] at h
      rcases hle : loadEntries env ns entries [] with e | l0
      · rw [hle] at h
        cases h
      · exact loadEntries_read_ok S env ns entries [] l0 hle
    · rw [if_neg hrd] at h
      cases h

/-- C7 counterexample: during `Status`, the error from `os.ReadDir` on the
root migrations directory is silently discarded (`if err == nil`): with every
other call succeeding, `Status` returns a successful result built from the
store-derived namespaces only (the on-disk namespace `"m"` is not even
discovered), although a filesystem call made during the operation failed.
This refutes the claim that no collaborator failure is silently discarded. -/
theorem c7_counterexample :
    noRootDirEnv.rootReadDirOk = false ∧
    Status noRootDirEnv ⟨[("m", [.file "1_a.up.sql" "U"])]⟩
      ⟨[⟨"core", 1, false, 0⟩], (), 0, []⟩ = .ok [⟨"core", 1, 0, false⟩] :=
  ⟨rfl, rfl⟩

/-- C7 witness: the amended propagation theorem applied at a concrete state:
a successful `MigrateNamespace` implies its table-creation, version-query
and load calls all succeeded. -/
theorem c7_witness :
    allOkEnv.ensureOk = true ∧ allOkEnv.queryVersionOk "m" = true ∧
    ∃ l, loadMigrationFiles allOkEnv ⟨[]⟩ "m" = .ok l :=
  (c7_error_wrapping Unit allOkEnv ⟨[]⟩ ⟨[], (), 0, []⟩ "m" 1
    ⟨1, "a", "m", "U", ""⟩ ["x"]).1 (by rfl)

end Migration
